import Mathlib

/-! Shallow embedding of the AppleBBCH81 repository scripts
(scripts/convert_to_coco.py, scripts/generate_splits.py and
generate_individual_annotations.py).  Python floats are modelled as exact
rationals, the file system as explicit maps from names to contents, and
PIL image decoding as an optional pair of pixel dimensions.  Rational
arithmetic is expressed through mkRat-based operations so that every
definition evaluates inside the kernel; bridge lemmas connect them to the
ambient field operations on the rationals. -/

/-- Addition on rationals through mkRat (kernel-computable form of +). -/
def ratAdd (a b : ℚ) : ℚ := mkRat (a.num * b.den + b.num * a.den) (a.den * b.den)

/-- Subtraction on rationals through mkRat (kernel-computable form of -). -/
def ratSub (a b : ℚ) : ℚ := mkRat (a.num * b.den - b.num * a.den) (a.den * b.den)

/-- Multiplication on rationals through mkRat (kernel-computable form of *). -/
def ratMul (a b : ℚ) : ℚ := mkRat (a.num * b.num) (a.den * b.den)

/-- Division on rationals through divInt (kernel-computable form of /). -/
def ratDiv (a b : ℚ) : ℚ := Rat.divInt (a.num * b.den) (a.den * b.num)

/-- Absolute value on rationals (kernel-computable form). -/
def ratAbs (a : ℚ) : ℚ := if a.num < 0 then -a else a

/-- Python str.strip() for the no-argument (whitespace) case, over the
character list of a string. -/
def pyStrip (s : String) : String :=
  String.mk (((s.data.dropWhile Char.isWhitespace).reverse.dropWhile Char.isWhitespace).reverse)

/-- Accumulator loop for whitespace splitting: current reversed word, then
remaining characters. -/
def wordsAux : List Char → List Char → List (List Char)
  | [], acc => if acc = [] then [] else [acc.reverse]
  | c :: cs, acc =>
    if c.isWhitespace then
      if acc = [] then wordsAux cs [] else acc.reverse :: wordsAux cs []
    else wordsAux cs (c :: acc)

/-- Python str.split() with no argument: split on runs of whitespace,
discarding empty pieces. -/
def pySplitWs (s : String) : List String := (wordsAux s.data []).map String.mk

/-- Accumulator loop for line splitting. -/
def linesAux : List Char → List Char → List (List Char)
  | [], acc => if acc = [] then [] else [acc.reverse]
  | c :: cs, acc => if c = '\n' then acc.reverse :: linesAux cs [] else linesAux cs (c :: acc)

/-- Python str.splitlines(), modelled for newline separators: no trailing
empty line is produced after a final newline, and an empty string gives
an empty list. -/
def pySplitLines (s : String) : List String := (linesAux s.data []).map String.mk

/-- Index of the last dot in a character list, if any. -/
def lastDotIdx (cs : List Char) : Option Nat :=
  ((List.range cs.length).filter (fun i => cs.getD i ' ' = '.')).getLast?

/-- Python pathlib.PurePath.stem: the file name without its final suffix; a
suffix requires a dot that is neither the first nor the last character. -/
def pyStem (name : String) : String :=
  let cs := name.data
  match lastDotIdx cs with
  | some i => if 0 < i ∧ i < cs.length - 1 then String.mk (cs.take i) else name
  | none => name

/-- Root part of Python os.path.splitext: cut at the last dot, except when
every character before that dot is itself a dot. -/
def pySplitextRoot (name : String) : String :=
  let cs := name.data
  match lastDotIdx cs with
  | some i => if (cs.take i).any (· ≠ '.') then String.mk (cs.take i) else name
  | none => name

/-- Python str.endswith for a single suffix. -/
def pyEndsWith (s suffix : String) : Bool := List.isSuffixOf suffix.data s.data

/-- ASCII lower-casing of one character (model of Python str.lower on the
ASCII file names appearing in this repository). -/
def charLower (c : Char) : Char :=
  if 'A' ≤ c ∧ c ≤ 'Z' then Char.ofNat (c.toNat + 32) else c

/-- Python str.lower(), ASCII model. -/
def pyToLower (s : String) : String := String.mk (s.data.map charLower)

/-- Python "\n".join(rows): character list of the joined string. -/
def joinChars : List String → List Char
  | [] => []
  | [r] => r.data
  | r :: rs => r.data ++ '\n' :: joinChars rs

/-- Lexicographic comparison of character lists by code point: the order
Python uses to sort the file-name strings of this repository. -/
def charListLe : List Char → List Char → Bool
  | [], _ => true
  | _ :: _, [] => false
  | a :: as, b :: bs => if a < b then true else if b < a then false else charListLe as bs

/-- Python string comparison a <= b, as used by sorted(). -/
def pyStrLe (a b : String) : Bool := charListLe a.data b.data

/-- Propositional form of pyStrLe, for use with the sorting library. -/
def pyStrLeRel (a b : String) : Prop := pyStrLe a b = true

instance : DecidableRel pyStrLeRel := fun a b => inferInstanceAs (Decidable (pyStrLe a b = true))

/-- Python sorted() on strings: a stable sort by code-point order. -/
def pySorted (l : List String) : List String := List.insertionSort pyStrLeRel l

/-- Numeric value of a list of decimal digit characters. -/
def digitsVal (cs : List Char) : Nat :=
  cs.foldl (fun acc c => 10 * acc + (c.toNat - 48)) 0

/-- Exponent part of a Python float literal: empty, or e/E followed by an
optional sign and at least one digit, consuming the whole remainder. -/
def parseExpPart : List Char → Option Int
  | [] => some 0
  | c :: rest =>
    if c = 'e' ∨ c = 'E' then
      match rest with
      | '+' :: ds => if ds ≠ [] ∧ ds.all Char.isDigit then some (digitsVal ds : Int) else none
      | '-' :: ds => if ds ≠ [] ∧ ds.all Char.isDigit then some (-(digitsVal ds : Int)) else none
      | ds => if ds ≠ [] ∧ ds.all Char.isDigit then some (digitsVal ds : Int) else none
    else none

/-- Scale a rational mantissa by a signed power of ten. -/
def scalePow10 (m : ℚ) (e : Int) : ℚ :=
  if 0 ≤ e then ratMul m (mkRat (10 ^ e.toNat) 1) else ratDiv m (mkRat (10 ^ (-e).toNat) 1)

/-- Unsigned Python float literal: digits with an optional dot and fraction
digits (at least one digit in total), then an optional exponent. -/
def parseUnsignedFloat (cs : List Char) : Option ℚ :=
  let ip := cs.takeWhile Char.isDigit
  let rest := cs.dropWhile Char.isDigit
  match rest with
  | '.' :: rest2 =>
    let fp := rest2.takeWhile Char.isDigit
    let rest3 := rest2.dropWhile Char.isDigit
    if ip = [] ∧ fp = [] then none
    else
      match parseExpPart rest3 with
      | none => none
      | some e => some (scalePow10 (mkRat (digitsVal (ip ++ fp)) (10 ^ fp.length)) e)
  | _ =>
    if ip = [] then none
    else
      match parseExpPart rest with
      | none => none
      | some e => some (scalePow10 (mkRat (digitsVal ip) 1) e)

/-- Python float(string), modelled for finite decimal literals (optional
sign, digits, optional dot and exponent); special strings such as inf and
nan are outside the model and rejected. -/
def pyFloat (s : String) : Option ℚ :=
  match (pyStrip s).data with
  | '+' :: cs => parseUnsignedFloat cs
  | '-' :: cs => (parseUnsignedFloat cs).map (fun q => mkRat (-q.num) q.den)
  | cs => parseUnsignedFloat cs

/-- Python int(string): optional sign followed by decimal digits only. -/
def pyIntOfString (s : String) : Option Int :=
  match (pyStrip s).data with
  | '+' :: cs => if cs ≠ [] ∧ cs.all Char.isDigit then some (digitsVal cs : Int) else none
  | '-' :: cs => if cs ≠ [] ∧ cs.all Char.isDigit then some (-(digitsVal cs : Int)) else none
  | cs => if cs ≠ [] ∧ cs.all Char.isDigit then some (digitsVal cs : Int) else none

/-- Python int(float): truncation toward zero. -/
def pyTrunc (q : ℚ) : Int := if q.num < 0 then Rat.ceil q else Rat.floor q

/-- Python round(float) to an integer: round half to even, on the exact
rational value. -/
def pyRound (q : ℚ) : Int :=
  let f := Rat.floor q
  let r := ratSub q (mkRat f 1)
  if r < mkRat 1 2 then f
  else if mkRat 1 2 < r then f + 1
  else if f % 2 = 0 then f else f + 1

/-- Python list slicing l[a:b], with clamping and negative-index wrap. -/
def pySlice (l : List α) (a b : Int) : List α :=
  let n : Int := l.length
  let lo := if a < 0 then max (n + a) 0 else min a n
  let hi := if b < 0 then max (n + b) 0 else min b n
  (l.take hi.toNat).drop lo.toNat

/-- Python list slicing l[a:] with an open end. -/
def pySliceFrom (l : List α) (a : Int) : List α := pySlice l a l.length

/-- One step of a 64-bit linear congruential generator.  This is the
deterministic stand-in for CPython random.Random(seed): generate_splits.py
uses the generator only as a deterministic, seed-indexed source of shuffle
indices, which is the contract this model preserves. -/
def lcgNext (s : Nat) : Nat := (6364136223846793005 * s + 1442695040888963407) % 2 ^ 64

/-- Initial generator state derived from the integer seed of
random.Random(seed). -/
def lcgInit (seed : Int) : Nat := lcgNext (seed.natAbs % 2 ^ 64)

/-- Model of random._randbelow: an index below the bound plus the next
generator state. -/
def randbelow (s bound : Nat) : Nat × Nat :=
  let t := lcgNext s
  (t / 2 ^ 33 % bound, t)

/-- Simultaneous swap x[i], x[j] = x[j], x[i] of two list positions. -/
def listSwap (l : List α) (i j : Nat) : List α :=
  if h : i < l.length ∧ j < l.length then
    (l.set i (l.get ⟨j, h.2⟩)).set j (l.get ⟨i, h.1⟩)
  else l

/-- The Fisher-Yates loop of CPython random.shuffle, for positions
i+1 down to 1: each step draws j below i+2 and swaps positions i+1 and j. -/
def shuffleSteps : Nat → Nat → List α → List α × Nat
  | 0, s, l => (l, s)
  | i + 1, s, l =>
    let p := randbelow s (i + 2)
    shuffleSteps i p.2 (listSwap l (i + 1) p.1)

/-- Model of random.Random(seed).shuffle applied to a copy of the list, as
generate_splits.py does with rng.shuffle(shuffled). -/
def pyShuffle (seed : Int) (l : List α) : List α :=
  (shuffleSteps (l.length - 1) (lcgInit seed) l).1

/-- generate_splits.py _split_stems: validate that the ratios sum to 1.0
within 1e-6, shuffle a copy of the stems with the seeded generator, and cut
it at round(n*train_ratio) and round(n*val_ratio) more.  The ValueError is
modelled as the error branch of Except. -/
def _split_stems (stems : List String) ( train_ratio val_ratio test_ratio : ℚ)
    (seed : Int) : Except String (List String × List String × List String) :=
  if ratAbs (ratSub (ratAdd (ratAdd train_ratio val_ratio) test_ratio) 1) > mkRat 1 1000000 then
    .error "train+val+test ratios must sum to 1.0"
  else
    let shuffled := pyShuffle seed stems
    let n : ℚ := mkRat stems.length 1
    let n_train : Int := pyRound (ratMul n train_ratio)
    let n_val : Int := pyRound (ratMul n val_ratio)
    let train := pySlice shuffled 0 n_train
    let val := pySlice shuffled n_train (n_train + n_val)
    let test := pySliceFrom shuffled (n_train + n_val)
    .ok (train, val, test)

/-- generate_splits.py _collect_image_stems: stems of the *.jpg files of the
images directory, sorted.  The directory is modelled by its list of file
names. -/
def _collect_image_stems (names : List String) : List String :=
  pySorted ((names.filter (fun p => pyEndsWith p ".jpg")).map pyStem)

/-- generate_splits.py _write_list content: newline-joined rows plus a
trailing newline. -/
def writeList (rows : List String) : String := String.mk (joinChars rows ++ ['\n'])

/-- generate_splits.py main: collect stems, split them, and write the five
split files; the ok branch lists the (file name, content) pairs written.
A ValueError raised by _split_stems propagates, so nothing is written. -/
def generate_splits_main (names : List String) ( train_ratio val_ratio test_ratio : ℚ)
    (seed : Int) : Except String (List (String × String)) :=
  let stems := _collect_image_stems names
  match _split_stems stems train_ratio val_ratio test_ratio seed with
  | .error e => .error e
  | .ok (train, val, test) =>
    .ok [("train.txt", writeList train), ("val.txt", writeList val),
         ("test.txt", writeList test), ("train_val.txt", writeList (train ++ val)),
         ("all.txt", writeList stems)]

/-- File-system and image-decoding environment for one run of the scripts.
images lists the file names of the images directory (in directory-listing
order); dims gives the pixel dimensions PIL decodes for a file name, or
none when decoding raises; sizes gives os.path.getsize; labels maps a label
file stem to the content of <labels_dir>/<stem>.txt, or none when that file
does not exist. -/
structure FS where
  images : List String
  dims : String → Option (Nat × Nat)
  sizes : String → Nat
  labels : String → Option String

/-- COCO "images" entry of scripts/convert_to_coco.py (dataclass CocoImage). -/
structure CocoImage where
  id : Nat
  file_name : String
  width : Nat
  height : Nat
  license : Nat
  date_captured : String
deriving DecidableEq

/-- COCO "annotations" entry of scripts/convert_to_coco.py (dataclass
named CocoAnnotation in the source). -/
structure CocoAnn where
  id : Nat
  image_id : Nat
  category_id : Nat
  bbox : List ℚ
  area : ℚ
  iscrowd : Nat
  segmentation : List (List ℚ)
deriving DecidableEq

/-- One entry of the "categories" array. -/
structure CocoCategory where
  id : Nat
  name : String
  supercategory : String
deriving DecidableEq

/-- The "info" block of the COCO dictionary. -/
structure CocoInfo where
  description : String
  version : String
  year : Nat
  contributor : String
  date_created : String
  url : String
deriving DecidableEq

/-- One entry of the "licenses" array. -/
structure CocoLicense where
  id : Nat
  name : String
  url : String
deriving DecidableEq

/-- The COCO output document of scripts/convert_to_coco.py. -/
structure CocoDoc where
  info : CocoInfo
  licenses : List CocoLicense
  images : List CocoImage
  annotations : List CocoAnn
  categories : List CocoCategory
deriving DecidableEq

/-- scripts/convert_to_coco.py _read_split_file: one stem per line, stripped
and filtered of blanks; a missing file gives an empty list.  The argument is
the file content, or none when the file does not exist. -/
def _read_split_file (content : Option String) : List String :=
  match content with
  | none => []
  | some s => ((pySplitLines s).map pyStrip).filter (· ≠ "")

/-- scripts/convert_to_coco.py _image_size: PIL decoding of the image at a
path.  A decoding failure is the raised exception, modelled as the error
branch; there is no fallback in this script. -/
def _image_size (decoded : Option (Nat × Nat)) (path : String) : Except String (Nat × Nat) :=
  match decoded with
  | some wh => .ok wh
  | none => .error ("cannot identify image file " ++ path)

/-- Parse of the five whitespace tokens of a YOLO label line by
scripts/convert_to_coco.py: class index via int(float(tok)), then four
floats; any other token count or a failing conversion gives none. -/
def parseRowTokens : List String → Option (Int × ℚ × ℚ × ℚ × ℚ)
  | [p0, p1, p2, p3, p4] =>
    match pyFloat p0, pyFloat p1, pyFloat p2, pyFloat p3, pyFloat p4 with
    | some c, some xc, some yc, some w, some h => some (pyTrunc c, xc, yc, w, h)
    | _, _, _, _, _ => none
  | _ => none

/-- One line of a label file as read by scripts/convert_to_coco.py
_read_yolo_labels: blank lines and malformed lines give none. -/
def lineRow (raw : String) : Option (Int × ℚ × ℚ × ℚ × ℚ) :=
  let r := pyStrip raw
  if r = "" then none else parseRowTokens (pySplitWs r)

/-- The line loop of _read_yolo_labels: a line that parses contributes one
row, any other line is skipped (the continue branches of the source). -/
def readRows : List String → List (Int × ℚ × ℚ × ℚ × ℚ)
  | [] => []
  | l :: ls =>
    match lineRow l with
    | none => readRows ls
    | some r => r :: readRows ls

/-- scripts/convert_to_coco.py _read_yolo_labels on the content of the
label file (none when the file does not exist). -/
def _read_yolo_labels (content : Option String) : List (Int × ℚ × ℚ × ℚ × ℚ) :=
  match content with
  | none => []
  | some s => readRows (pySplitLines s)

/-- scripts/convert_to_coco.py _yolo_to_coco_bbox: normalized centre box to
absolute-pixel (x, y, width, height) with top-left corner. -/
def _yolo_to_coco_bbox (xc yc w h : ℚ) (width_px height_px : Nat) : ℚ × ℚ × ℚ × ℚ :=
  let width := ratMul w (mkRat width_px 1)
  let height := ratMul h (mkRat height_px 1)
  (ratSub (ratMul xc (mkRat width_px 1)) (ratDiv width (mkRat 2 1)),
   ratSub (ratMul yc (mkRat height_px 1)) (ratDiv height (mkRat 2 1)),
   width, height)

/-- scripts/convert_to_coco.py _build_coco_dict: the fresh COCO skeleton. -/
def _build_coco_dict : CocoDoc :=
  { info := { description := "AppleBBCH81 Dataset - Apple fruit images for object detection",
              version := "1.0", year := 2024, contributor := "Project LZP",
              date_created := "2024-04-12", url := "" },
    licenses := [{ id := 1, name := "CC BY 4.0",
                   url := "https://creativecommons.org/licenses/by/4.0/" }],
    images := [], annotations := [],
    categories := [{ id := 1, name := "apple", supercategory := "fruit" }] }

/-- scripts/convert_to_coco.py _collect_image_paths: the *.jpg files of the
images directory sorted by name, optionally filtered by a stem set.  The
directory is modelled by its list of file names. -/
def _collect_image_paths (names : List String) (stems : Option (List String)) : List String :=
  let candidates := pySorted (names.filter (fun p => pyEndsWith p ".jpg"))
  match stems with
  | none => candidates
  | some st => candidates.filter (fun p => pyStem p ∈ st)

/-- The inner annotation loop of convert_to_coco for one image: each row
becomes one record with the running annotation id, the owning image id and
the fixed category id 1 (the source normalizes every class index to 1). -/
def annsFor (img_id W H : Nat) : Nat → List (Int × ℚ × ℚ × ℚ × ℚ) → List CocoAnn
  | _, [] => []
  | annId, (_, xc, yc, w, h) :: rs =>
    let b := _yolo_to_coco_bbox xc yc w h W H
    { id := annId, image_id := img_id, category_id := 1,
      bbox := [b.1, b.2.1, b.2.2.1, b.2.2.2], area := ratMul b.2.2.1 b.2.2.2,
      iscrowd := 0, segmentation := [] } :: annsFor img_id W H (annId + 1) rs

/-- The image loop of convert_to_coco: sequential image ids from imgId,
sequential annotation ids from annId; a PIL decoding failure propagates
and aborts the whole run (there is no try/except in this script). -/
def convertFold (fs : FS) : List String → Nat → Nat → Except String (List CocoImage × List CocoAnn)
  | [], _, _ => .ok ([], [])
  | p :: ps, imgId, annId =>
    match _image_size (fs.dims p) p with
    | .error e => .error e
    | .ok wh =>
      let rows := _read_yolo_labels (fs.labels (pyStem p))
      let anns := annsFor imgId wh.1 wh.2 annId rows
      match convertFold fs ps (imgId + 1) (annId + rows.length) with
      | .error e => .error e
      | .ok (imgs, restAnns) =>
        .ok ({ id := imgId, file_name := p, width := wh.1, height := wh.2,
               license := 1, date_captured := "2024-04-12" } :: imgs, anns ++ restAnns)

/-- scripts/convert_to_coco.py convert_to_coco: select the image paths,
convert them with ids starting at 1, and write the document.  The second
component collects per-item anomaly prints, of which this script has none;
an uncaught exception is the error branch, and then nothing is written. -/
def convert_to_coco (fs : FS) (stems : Option (List String)) :
    Except String (CocoDoc × List String) :=
  let image_paths := _collect_image_paths fs.images stems
  match convertFold fs image_paths 1 1 with
  | .error e => .error e
  | .ok (imgs, anns) =>
    .ok ({ _build_coco_dict with images := imgs, annotations := anns }, [])

/-- generate_individual_annotations.py generate_unique_id: a 7-digit random
part and the last three digits of the millisecond clock, both modelled as
explicit inputs. -/
def generate_unique_id (randomPart timestampMs : Nat) : Nat :=
  randomPart * 1000 + timestampMs % 1000

/-- The image-information record of generate_individual_annotations.py. -/
structure GiaImageInfo where
  width : Nat
  height : Nat
  size : Nat
  format : String
deriving DecidableEq

/-- generate_individual_annotations.py get_image_info: decoded dimensions
and file size, or the 640 by 640 fallback with an error message when PIL
raises. -/
def get_image_info (path : String) (decoded : Option (Nat × Nat)) (fileSize : Nat) :
    GiaImageInfo × List String :=
  match decoded with
  | some wh => ({ width := wh.1, height := wh.2, size := fileSize, format := "JPEG" }, [])
  | none => ({ width := 640, height := 640, size := fileSize, format := "JPEG" },
             ["Error reading image " ++ path])

/-- generate_individual_annotations.py yolo_to_coco_bbox: the source scales
the centre coordinates and the sizes by the pixel dimensions and returns
them as [x, y, w, h] without subtracting half of the size. -/
def yolo_to_coco_bbox (bbox : ℚ × ℚ × ℚ × ℚ) (img_width img_height : Nat) : List ℚ :=
  [ratMul bbox.1 (mkRat img_width 1), ratMul bbox.2.1 (mkRat img_height 1),
   ratMul bbox.2.2.1 (mkRat img_width 1), ratMul bbox.2.2.2 (mkRat img_height 1)]

/-- One parsed YOLO record of generate_individual_annotations.py. -/
structure GiaYoloAnn where
  class_id : Int
  center_x : ℚ
  center_y : ℚ
  width : ℚ
  height : ℚ
deriving DecidableEq

/-- The line loop of read_yolo_annotations.  A blank line or a line whose
token count is not 5 is skipped; a 5-token line with a failing int or float
conversion raises, which the try/except around the whole loop catches, so
the rest of the file is not parsed (the Boolean records that abort). -/
def giaReadRows : List String → List GiaYoloAnn × Bool
  | [] => ([], false)
  | l :: ls =>
    let r := pyStrip l
    if r = "" then giaReadRows ls
    else
      match pySplitWs r with
      | [p0, p1, p2, p3, p4] =>
        match pyIntOfString p0, pyFloat p1, pyFloat p2, pyFloat p3, pyFloat p4 with
        | some c, some x, some y, some w, some h =>
          let rest := giaReadRows ls
          (⟨c, x, y, w, h⟩ :: rest.1, rest.2)
        | _, _, _, _, _ => ([], true)
      | _ => giaReadRows ls

/-- generate_individual_annotations.py read_yolo_annotations: parse the
label file, returning the records accumulated before any abort together
with the error print of the except branch; a missing file (open raises)
gives no records and the same error print. -/
def read_yolo_annotations (path : String) (content : Option String) :
    List GiaYoloAnn × List String :=
  match content with
  | none => ([], ["Error reading label file " ++ path])
  | some s =>
    let res := giaReadRows (pySplitLines s)
    (res.1, if res.2 then ["Error reading label file " ++ path] else [])

/-- One converted annotation of generate_individual_annotations.py. -/
structure GiaAnn where
  id : Nat
  image_id : Nat
  category_id : Nat
  segmentation : List (List ℚ)
  area : ℚ
  bbox : List ℚ
deriving DecidableEq

/-- generate_individual_annotations.py create_annotation_template, with the
generate_unique_id inputs passed explicitly. -/
def create_annotation_template (gen : Nat × Nat) (image_id category_id : Nat)
    (bbox : List ℚ) (area : ℚ) : GiaAnn :=
  { id := generate_unique_id gen.1 gen.2, image_id := image_id,
    category_id := category_id, segmentation := [], area := area, bbox := bbox }

/-- One image entry of the individual JSON document. -/
structure GiaImage where
  id : Nat
  width : Nat
  height : Nat
  file_name : String
  size : Nat
  format : String
  url : String
  hash : String
  status : String
deriving DecidableEq

/-- One category entry of the individual JSON document. -/
structure GiaCategory where
  id : Nat
  name : String
  supercategory : String
deriving DecidableEq

/-- The individual JSON document of generate_individual_annotations.py;
the constant info block of the source template carries no data and is not
modelled. -/
structure GiaDoc where
  images : List GiaImage
  annotations : List GiaAnn
  categories : List GiaCategory
deriving DecidableEq

/-- The annotation loop of generate_individual_json: each parsed record is
converted with yolo_to_coco_bbox, its area is bbox[2]*bbox[3], and its id
comes from the running identifier stream. -/
def giaAnnsFor (g : Nat → Nat × Nat) (image_id category_id W H : Nat) :
    Nat → List GiaYoloAnn → List GiaAnn
  | _, [] => []
  | k, a :: rs =>
    let coco_bbox := yolo_to_coco_bbox (a.center_x, a.center_y, a.width, a.height) W H
    let area := ratMul (coco_bbox.getD 2 0) (coco_bbox.getD 3 0)
    create_annotation_template (g k) image_id category_id coco_bbox area ::
      giaAnnsFor g image_id category_id W H (k + 1) rs

/-- generate_individual_annotations.py generate_individual_json for one
image file: image and category ids are drawn from the identifier stream g
(two draws, then one per annotation); a missing label file contributes the
warning print and an empty annotations list.  The second component collects
the anomaly prints of the call. -/
def generate_individual_json (image_file : String) (fs : FS) (g : Nat → Nat × Nat) :
    GiaDoc × List String :=
  let info := get_image_info ("data/images/" ++ image_file) (fs.dims image_file)
    (fs.sizes image_file)
  let image_id := generate_unique_id (g 0).1 (g 0).2
  let category_id := generate_unique_id (g 1).1 (g 1).2
  let stem := pySplitextRoot image_file
  let parsed :=
    match fs.labels stem with
    | some s =>
      let res := read_yolo_annotations ("data/labels/" ++ stem ++ ".txt") (some s)
      (giaAnnsFor (fun k => g (2 + k)) image_id category_id info.1.width info.1.height 0 res.1,
       res.2)
    | none => ([], ["Warning: Label file not found for " ++ image_file])
  ({ images := [{ id := image_id, width := info.1.width, height := info.1.height,
                  file_name := image_file, size := info.1.size, format := info.1.format,
                  url := "", hash := "", status := "success" }],
     annotations := parsed.1,
     categories := [{ id := category_id, name := "AppleBBCH81", supercategory := "apple" }] },
   info.2 ++ parsed.2)

/-- The extension filter of generate_individual_annotations.py main:
f.lower().endswith((".jpg", ".jpeg", ".png")). -/
def giaIsImageFile (f : String) : Bool :=
  pyEndsWith (pyToLower f) ".jpg" || pyEndsWith (pyToLower f) ".jpeg" ||
    pyEndsWith (pyToLower f) ".png"

/-- The per-image loop of generate_individual_annotations.py main: every
enumerated image is processed (the try/except around each call catches any
exception and continues).  The identifier stream advances by the two ids
plus one per annotation that each call consumes. -/
def giaMainFold (fs : FS) (g : Nat → Nat × Nat) :
    List String → Nat → List (String × GiaDoc) × List String
  | [], _ => ([], [])
  | f :: rest, off =>
    let r := generate_individual_json f fs (fun k => g (off + k))
    let next := giaMainFold fs g rest (off + 2 + r.1.annotations.length)
    ((pySplitextRoot f ++ ".json", r.1) :: next.1, r.2 ++ next.2)

/-- generate_individual_annotations.py main: enumerate the image files of
the directory listing in order, unsorted, and generate one JSON document
per image. -/
def generate_individual_main (fs : FS) (g : Nat → Nat × Nat) :
    List (String × GiaDoc) × List String :=
  giaMainFold fs g (fs.images.filter giaIsImageFile) 0

/-- Concrete test environment: one readable 100x200 image img.jpg whose
label file is missing. -/
def fsNoLabel : FS :=
  { images := ["img.jpg"], dims := fun _ => some (100, 200), sizes := fun _ => 7,
    labels := fun _ => none }

/-- Concrete test environment: one image bad.jpg that PIL cannot decode. -/
def fsBadImage : FS :=
  { images := ["bad.jpg"], dims := fun _ => none, sizes := fun _ => 3,
    labels := fun _ => none }

/-- Concrete test environment: one readable 10x20 image i.jpg with one
well-formed label row. -/
def fsSample : FS :=
  { images := ["i.jpg"], dims := fun _ => some (10, 20), sizes := fun _ => 5,
    labels := fun _ => some "0 0.5 0.5 0.2 0.4" }

/-- Constant identifier stream for concrete runs of the individual
converter. -/
def gZero : Nat → Nat × Nat := fun _ => (1000000, 0)

/-- The document convert_to_coco produces for fsNoLabel. -/
def docNoLabel : CocoDoc :=
  { _build_coco_dict with
    images := [{ id := 1, file_name := "img.jpg", width := 100, height := 200,
                 license := 1, date_captured := "2024-04-12" }] }

/-- The document convert_to_coco produces for fsSample. -/
def docSample : CocoDoc :=
  { _build_coco_dict with
    images := [{ id := 1, file_name := "i.jpg", width := 10, height := 20,
                 license := 1, date_captured := "2024-04-12" }],
    annotations := [{ id := 1, image_id := 1, category_id := 1,
                      bbox := [(4 : ℚ), 6, 2, 8], area := 16, iscrowd := 0,
                      segmentation := [] }] }

/-! Theorems.  Bridge lemmas relating the kernel-computable rational
operations to the field operations, sanity checks of the helper layer, and
the verification results for the claims. -/

theorem ratAdd_eq (a b : ℚ) : ratAdd a b = a + b := (Rat.add_def' a b).symm

theorem ratSub_eq (a b : ℚ) : ratSub a b = a - b := (Rat.sub_def' a b).symm

theorem ratMul_eq (a b : ℚ) : ratMul a b = a * b := by
  rw [ratMul, Rat.mul_def, mkRat, dif_neg (Nat.mul_ne_zero a.den_nz b.den_nz)]

theorem ratDiv_eq (a b : ℚ) : ratDiv a b = a / b := by
  rw [ratDiv, Rat.divInt_eq_div]
  rcases eq_or_ne b 0 with rfl | hb
  · simp
  · have hbn : (b.num : ℚ) ≠ 0 := by
      exact_mod_cast Rat.num_ne_zero.mpr hb
    have had : (a.den : ℚ) ≠ 0 := Nat.cast_ne_zero.mpr a.den_nz
    have hbd : (b.den : ℚ) ≠ 0 := Nat.cast_ne_zero.mpr b.den_nz
    have ha : (a : ℚ) * a.den = a.num := by
      nth_rewrite 1 [← Rat.num_div_den a]
      exact div_mul_cancel₀ _ had
    have hb2 : (b : ℚ) * b.den = b.num := by
      nth_rewrite 1 [← Rat.num_div_den b]
      exact div_mul_cancel₀ _ hbd
    push_cast
    rw [div_eq_div_iff (by exact mul_ne_zero had hbn) hb, ← ha, ← hb2]
    ring

theorem ratAbs_eq (a : ℚ) : ratAbs a = |a| := by
  rcases lt_or_le a.num 0 with h | h
  · have ha : a < 0 := by
      by_contra hc
      exact absurd (Rat.num_nonneg.mpr (not_lt.mp hc)) (not_le.mpr h)
    rw [ratAbs, if_pos h, abs_of_neg ha]
  · rw [ratAbs, if_neg (not_lt.mpr h), abs_of_nonneg (Rat.num_nonneg.mp h)]

example : pySplitWs "  0  0.5 0.5\t0.2 0.4 " = ["0", "0.5", "0.5", "0.2", "0.4"] := by decide
example : pySplitLines "a\nb\n" = ["a", "b"] := by decide
example : pySplitLines "" = [] := by decide
example : pyStem "img_001.jpg" = "img_001" := by decide
example : pyStem ".hidden" = ".hidden" := by decide
example : pySplitextRoot "img.2.jpg" = "img.2" := by decide
example : pyFloat "0.5" = some (mkRat 1 2) := by decide
example : pyFloat "-1e3" = some (mkRat (-1000) 1) := by decide
example : pyFloat "abc" = none := by decide
example : pyFloat "2.5e-1" = some (mkRat 1 4) := by decide
example : pyIntOfString "0" = some 0 := by decide
example : pyIntOfString "0.0" = none := by decide
example : pyRound (mkRat 3 2) = 2 := by decide
example : pyRound (mkRat 5 2) = 2 := by decide
example : pyRound (mkRat (-10) 1) = -10 := by decide
example : pyTrunc (mkRat (-7) 2) = -3 := by decide
example : pySlice [1, 2, 3, 4, 5] 0 15 = [1, 2, 3, 4, 5] := by decide
example : pySlice [1, 2, 3, 4, 5] 15 2 = [] := by decide
example : pySlice [1, 2, 3, 4, 5] (-2) 5 = [4, 5] := by decide
example : pySorted ["b", "a", "c"] = ["a", "b", "c"] := by decide
example : pyEndsWith "a.jpg" ".jpg" = true := by decide
example : pyToLower "A.JPG" = "a.jpg" := by decide
example : ratAbs (ratSub (ratAdd (ratAdd (mkRat 4 5) (mkRat 1 10)) (mkRat 1 10)) 1) = 0 := by decide
example : (pyShuffle 42 ["a", "b", "c", "d"]).length = 4 := by decide

theorem get_cons_set_perm : ∀ (t : List α) (m : Nat) (h : m < t.length) (a : α),
    (t.get ⟨m, h⟩ :: t.set m a).Perm (a :: t)
  | b :: s, 0, _, a => List.Perm.swap a b s
  | b :: s, m + 1, h, a => by
    have hm : m < s.length := Nat.lt_of_succ_lt_succ h
    have IH := get_cons_set_perm s m hm a
    simp only [List.get_cons_succ, List.set_cons_succ]
    exact ((List.Perm.swap b _ _).trans (IH.cons b)).trans (List.Perm.swap a b s)

theorem set_set_perm : ∀ (l : List α) (i j : Nat) (hi : i < l.length) (hj : j < l.length),
    ((l.set i (l.get ⟨j, hj⟩)).set j (l.get ⟨i, hi⟩)).Perm l
  | _ :: _, 0, 0, _, _ => by simp
  | a :: t, 0, m + 1, _, hj => by
    have hm : m < t.length := Nat.lt_of_succ_lt_succ hj
    simpa using get_cons_set_perm t m hm a
  | a :: t, k + 1, 0, hi, _ => by
    have hk : k < t.length := Nat.lt_of_succ_lt_succ hi
    simpa using get_cons_set_perm t k hk a
  | a :: t, k + 1, m + 1, hi, hj => by
    have hk : k < t.length := Nat.lt_of_succ_lt_succ hi
    have hm : m < t.length := Nat.lt_of_succ_lt_succ hj
    simpa using (set_set_perm t k m hk hm).cons a

theorem listSwap_perm (l : List α) (i j : Nat) : (listSwap l i j).Perm l := by
  unfold listSwap
  split
  · next h => exact set_set_perm l i j h.1 h.2
  · exact List.Perm.refl l

theorem shuffleSteps_perm : ∀ (i s : Nat) (l : List α), ((shuffleSteps i s l).1).Perm l
  | 0, _, _ => List.Perm.refl _
  | i + 1, _, l => (shuffleSteps_perm i _ _).trans (listSwap_perm l (i + 1) _)

theorem pyShuffle_perm (seed : Int) (l : List α) : (pyShuffle seed l).Perm l :=
  shuffleSteps_perm _ _ l

theorem take_drop_partition (l : List α) (A B : Nat) (h : A ≤ B) :
    l.take A ++ ((l.take B).drop A ++ l.drop B) = l := by
  rw [List.drop_take]
  have h2 : l.drop B = (l.drop A).drop (B - A) := by
    rw [List.drop_drop]
    congr 1
    omega
  rw [h2, List.take_append_drop, List.take_append_drop]

theorem pySlice_partition (l : List α) (a b : Int) (ha : 0 ≤ a) (hab : a ≤ b) :
    pySlice l 0 a ++ (pySlice l a b ++ pySliceFrom l b) = l := by
  have hn : (0 : Int) ≤ (l.length : Int) := by positivity
  have hb : 0 ≤ b := le_trans ha hab
  unfold pySliceFrom pySlice
  dsimp only
  rw [if_neg (by omega : ¬ (0 : Int) < 0), if_neg (not_lt.mpr ha),
    if_neg (not_lt.mpr hb), if_neg (not_lt.mpr hn), min_self, Int.toNat_natCast,
    List.take_length, min_eq_left hn, Int.toNat_zero, List.drop_zero]
  exact take_drop_partition l _ _ (Int.toNat_le_toNat (min_le_min hab (le_refl _)))

theorem ratFloor_eq_floor (q : ℚ) : Rat.floor q = Int.floor q := rfl

theorem pyRound_nonneg (q : ℚ) (h : 0 ≤ q) : 0 ≤ pyRound q := by
  have hf : (0 : Int) ≤ Rat.floor q := by
    rw [ratFloor_eq_floor]
    exact Int.floor_nonneg.mpr h
  unfold pyRound
  dsimp only
  split_ifs <;> omega

theorem mkRat_tol : (mkRat 1 1000000 : ℚ) = 1 / 1000000 := by
  rw [Rat.mkRat_eq_divInt, Rat.divInt_eq_div]
  norm_num

theorem tol_bridge ( train_ratio val_ratio test_ratio : ℚ) :
    (ratAbs (ratSub (ratAdd (ratAdd train_ratio val_ratio) test_ratio) 1) > mkRat 1 1000000) ↔
      |train_ratio + val_ratio + test_ratio - 1| > 1 / 1000000 := by
  rw [ratAdd_eq, ratAdd_eq, ratSub_eq, ratAbs_eq, mkRat_tol]

/-- C2 counterexample: the ratio triple (1.5, -1.0, 0.5) sums to 1.0 and
passes the validation of _split_stems, yet on ten distinct identifiers the
returned lists have 10 + 0 + 5 = 15 elements in total instead of 10, and
the train and test lists share the element s5, so the claimed partition
property fails for a ratio triple that passes the sum-to-1.0 check. -/
theorem C2_split_cex :
    _split_stems ["s0", "s1", "s2", "s3", "s4", "s5", "s6", "s7", "s8", "s9"]
        (mkRat 3 2) (mkRat (-1) 1) (mkRat 1 2) 0 =
      .ok (["s2", "s1", "s0", "s3", "s8", "s5", "s6", "s9", "s7", "s4"], [],
        ["s5", "s6", "s9", "s7", "s4"]) ∧
      (["s0", "s1", "s2", "s3", "s4", "s5", "s6", "s7", "s8", "s9"] : List String).length = 10 ∧
      (10 : Nat) + 0 + 5 ≠ 10 ∧
      "s5" ∈ ["s2", "s1", "s0", "s3", "s8", "s5", "s6", "s9", "s7", "s4"] ∧
      "s5" ∈ ["s5", "s6", "s9", "s7", "s4"] := by
  refine ⟨rfl, by decide, by decide, by decide, by decide⟩

/-- C2 (amended): for every input list of distinct identifiers, every seed,
and every ratio triple with non-negative train and val ratios that passes
the sum-to-1.0 validation, _split_stems returns three lists whose
concatenation is a permutation of the input (no element duplicated or
dropped), whose lengths sum to the input length, and which are pairwise
disjoint. -/
theorem C2_split_partition (stems t v w : List String)
    ( train_ratio val_ratio test_ratio : ℚ) (seed : Int)
    (hnd : stems.Nodup) (htr : 0 ≤ train_ratio) (hvr : 0 ≤ val_ratio)
    (h : _split_stems stems train_ratio val_ratio test_ratio seed = .ok (t, v, w)) :
    (t ++ v ++ w).Perm stems ∧
      t.length + v.length + w.length = stems.length ∧
      t.Disjoint v ∧ t.Disjoint w ∧ v.Disjoint w := by
  have hmt : (0 : ℚ) ≤ ratMul (mkRat stems.length 1) train_ratio := by
    rw [ratMul_eq, Rat.mkRat_one]
    exact mul_nonneg (by positivity) htr
  have hmv : (0 : ℚ) ≤ ratMul (mkRat stems.length 1) val_ratio := by
    rw [ratMul_eq, Rat.mkRat_one]
    exact mul_nonneg (by positivity) hvr
  have ha : 0 ≤ pyRound (ratMul (mkRat stems.length 1) train_ratio) := pyRound_nonneg _ hmt
  have hv : 0 ≤ pyRound (ratMul (mkRat stems.length 1) val_ratio) := pyRound_nonneg _ hmv
  rw [_split_stems] at h
  split_ifs at h
  simp only [Except.ok.injEq, Prod.mk.injEq] at h
  obtain ⟨ht, hv2, hw⟩ := h
  have hperm0 := pyShuffle_perm seed stems
  rw [← pySlice_partition (pyShuffle seed stems)
    (pyRound (ratMul (mkRat stems.length 1) train_ratio))
    (pyRound (ratMul (mkRat stems.length 1) train_ratio) +
      pyRound (ratMul (mkRat stems.length 1) val_ratio)) ha (by omega)] at hperm0
  rw [ht, hv2, hw] at hperm0
  have hperm : (t ++ v ++ w).Perm stems := by
    rw [List.append_assoc]
    exact hperm0
  refine ⟨hperm, ?_, ?_, ?_, ?_⟩
  · have hl := hperm.length_eq
    simp only [List.length_append] at hl
    omega
  all_goals {
    have hnd2 : (t ++ (v ++ w)).Nodup := (hperm0.nodup_iff).mpr hnd
    rw [List.nodup_append] at hnd2
    obtain ⟨-, hvw, hdj⟩ := hnd2
    rw [List.disjoint_append_right] at hdj
    rw [List.nodup_append] at hvw
    first
      | exact hdj.1
      | exact hdj.2
      | exact hvw.2.2
  }

/-- Witness for C2_split_partition at a concrete run: three identifiers
split with ratios (0.5, 0.25, 0.25) and seed 7. -/
theorem C2_split_partition_witness :
    ((["a", "b"] ++ ["c"] ++ ([] : List String)).Perm ["a", "b", "c"] ∧
      (["a", "b"] : List String).length + (["c"] : List String).length +
        ([] : List String).length = (["a", "b", "c"] : List String).length ∧
      (["a", "b"] : List String).Disjoint ["c"] ∧
      (["a", "b"] : List String).Disjoint [] ∧
      (["c"] : List String).Disjoint []) :=
  C2_split_partition ["a", "b", "c"] ["a", "b"] ["c"] []
    (mkRat 1 2) (mkRat 1 4) (mkRat 1 4) 7 (by decide) (by decide) (by decide) rfl

/-- C3: _split_stems is a pure function of the identifier list, the three
ratios and the seed (the generator is constructed locally from the seed),
so two calls with equal inputs return equal (train, val, test) triples. -/
theorem C3_split_deterministic (stems₁ stems₂ : List String)
    (tr₁ tr₂ vr₁ vr₂ te₁ te₂ : ℚ) (seed₁ seed₂ : Int)
    (h1 : stems₁ = stems₂) (h2 : tr₁ = tr₂) (h3 : vr₁ = vr₂) (h4 : te₁ = te₂)
    (h5 : seed₁ = seed₂) :
    _split_stems stems₁ tr₁ vr₁ te₁ seed₁ = _split_stems stems₂ tr₂ vr₂ te₂ seed₂ := by
  rw [h1, h2, h3, h4, h5]

/-- Witness for C3_split_deterministic at a concrete repeated call. -/
theorem C3_split_deterministic_witness :
    _split_stems ["a", "b"] (mkRat 1 2) (mkRat 1 4) (mkRat 1 4) 3 =
      _split_stems ["a", "b"] (mkRat 1 2) (mkRat 1 4) (mkRat 1 4) 3 :=
  C3_split_deterministic ["a", "b"] ["a", "b"] (mkRat 1 2) (mkRat 1 2) (mkRat 1 4)
    (mkRat 1 4) (mkRat 1 4) (mkRat 1 4) 3 3 rfl rfl rfl rfl rfl

/-- C4: _split_stems returns the ratio configuration error exactly when the
ratio sum misses 1.0 by more than 1e-6, and the splitter main writes its
files exactly in the other case, nothing having been written in the error
case; the error value is the ValueError message of the source. -/
theorem C4_ratio_validation (names stems : List String)
    ( train_ratio val_ratio test_ratio : ℚ) (seed : Int) :
    (_split_stems stems train_ratio val_ratio test_ratio seed =
        .error "train+val+test ratios must sum to 1.0" ↔
      |train_ratio + val_ratio + test_ratio - 1| > 1 / 1000000) ∧
    (generate_splits_main names train_ratio val_ratio test_ratio seed =
        .error "train+val+test ratios must sum to 1.0" ↔
      |train_ratio + val_ratio + test_ratio - 1| > 1 / 1000000) := by
  have hb := tol_bridge train_ratio val_ratio test_ratio
  constructor
  · rw [_split_stems]
    split_ifs with hc
    · exact iff_of_true rfl (hb.mp hc)
    · refine iff_of_false (by simp) fun h => absurd (hb.mpr h) hc
  · rw [generate_splits_main, _split_stems]
    split_ifs with hc
    · exact iff_of_true rfl (hb.mp hc)
    · refine iff_of_false (by simp) fun h => absurd (hb.mpr h) hc

/-- C1 counterexample: on the YOLO box (cx=0.5, cy=0.5, w=0.2, h=0.4) of a
100x200 image, neither conversion entry point returns the claimed COCO box
(x=40, y=20, w=20, h=80): the script converter returns y = 0.5*200 - 80/2 =
60 (the claimed formula itself gives 60, not 20), and the individual
converter returns the scaled centre [50, 100, 20, 80]. -/
theorem C1_bbox_cex :
    _yolo_to_coco_bbox (mkRat 1 2) (mkRat 1 2) (mkRat 1 5) (mkRat 2 5) 100 200 ≠
      ((40 : ℚ), (20 : ℚ), (20 : ℚ), (80 : ℚ)) ∧
    yolo_to_coco_bbox (mkRat 1 2, mkRat 1 2, mkRat 1 5, mkRat 2 5) 100 200 ≠
      [(40 : ℚ), (20 : ℚ), (20 : ℚ), (80 : ℚ)] := by
  refine ⟨by decide, by decide⟩

/-- C1 (amended): the converter _yolo_to_coco_bbox of
scripts/convert_to_coco.py computes the claimed top-left COCO box
(w*W, h*H, x = cx*W - w*W/2, y = cy*H - h*H/2), which maps the box
(0.5, 0.5, 0.2, 0.4) on a 100x200 image to (40, 60, 20, 80);
yolo_to_coco_bbox of generate_individual_annotations.py instead returns
[cx*W, cy*H, w*W, h*H], the scaled centre without the half-size
subtraction, mapping the same box to [50, 100, 20, 80]. -/
theorem C1_bbox_eval :
    (∀ (xc yc w h : ℚ) (W H : Nat),
      _yolo_to_coco_bbox xc yc w h W H =
        (xc * W - (w * W) / 2, yc * H - (h * H) / 2, w * W, h * H) ∧
      yolo_to_coco_bbox (xc, yc, w, h) W H = [xc * W, yc * H, w * W, h * H]) ∧
    _yolo_to_coco_bbox (mkRat 1 2) (mkRat 1 2) (mkRat 1 5) (mkRat 2 5) 100 200 =
      ((40 : ℚ), (60 : ℚ), (20 : ℚ), (80 : ℚ)) ∧
    yolo_to_coco_bbox (mkRat 1 2, mkRat 1 2, mkRat 1 5, mkRat 2 5) 100 200 =
      [(50 : ℚ), (100 : ℚ), (20 : ℚ), (80 : ℚ)] ∧
    ((50 : ℚ), (100 : ℚ)) ≠ ((40 : ℚ), (60 : ℚ)) := by
  refine ⟨?_, by decide, by decide, by decide⟩
  intro xc yc w h W H
  have hmk : ∀ n : Nat, (mkRat n 1 : ℚ) = (n : ℚ) := by
    intro n
    rw [Rat.mkRat_one]
    push_cast
    rfl
  have hmk2 : (mkRat 2 1 : ℚ) = 2 := by
    rw [Rat.mkRat_one]
    norm_num
  constructor
  · unfold _yolo_to_coco_bbox
    dsimp only
    rw [ratMul_eq, ratMul_eq, ratMul_eq, ratMul_eq, ratDiv_eq, ratDiv_eq, ratSub_eq,
      ratSub_eq, hmk, hmk, hmk2]
  · unfold yolo_to_coco_bbox
    dsimp only
    rw [ratMul_eq, ratMul_eq, ratMul_eq, ratMul_eq, hmk, hmk]

theorem annsFor_mem : ∀ (rows : List (Int × ℚ × ℚ × ℚ × ℚ)) (img_id W H annId : Nat)
    (x : CocoAnn), x ∈ annsFor img_id W H annId rows → x.image_id = img_id ∧ x.category_id = 1
  | [], _, _, _, _, _, hx => absurd hx (List.not_mem_nil _)
  | (c, xc, yc, w, h) :: rs, img_id, W, H, annId, x, hx => by
    rw [annsFor] at hx
    rcases List.mem_cons.mp hx with rfl | hx2
    · exact ⟨rfl, rfl⟩
    · exact annsFor_mem rs img_id W H (annId + 1) x hx2

theorem convertFold_images (fs : FS) : ∀ (ps : List String) (imgId annId : Nat)
    (imgs : List CocoImage) (anns : List CocoAnn),
    convertFold fs ps imgId annId = .ok (imgs, anns) →
    imgs.map (fun r => r.id) = List.range' imgId ps.length ∧
      (∀ k (hk : k < ps.length), ∃ rec ∈ imgs, rec.id = imgId + k ∧
        rec.file_name = ps.get ⟨k, hk⟩) ∧
      (∀ x ∈ anns, (imgId ≤ x.image_id ∧ x.image_id < imgId + ps.length) ∧ x.category_id = 1)
  | [], imgId, annId, imgs, anns, h => by
    simp only [convertFold, Except.ok.injEq, Prod.mk.injEq] at h
    obtain ⟨rfl, rfl⟩ := h
    refine ⟨by simp [List.range'], ?_, by simp⟩
    intro k hk
    exact absurd hk (by simp)
  | p :: ps, imgId, annId, imgs, anns, h => by
    rw [convertFold] at h
    rcases hsz : _image_size (fs.dims p) p with e | wh
    · rw [hsz] at h
      exact absurd h (by simp)
    · rw [hsz] at h
      dsimp only at h
      rcases hrec : convertFold fs ps (imgId + 1)
          (annId + (_read_yolo_labels (fs.labels (pyStem p))).length) with e | pr
      · rw [hrec] at h
        exact absurd h (by simp)
      · rw [hrec] at h
        simp only [Except.ok.injEq, Prod.mk.injEq] at h
        obtain ⟨rfl, rfl⟩ := h
        obtain ⟨IH1, IH2, IH3⟩ := convertFold_images fs ps (imgId + 1)
          (annId + (_read_yolo_labels (fs.labels (pyStem p))).length) pr.1 pr.2 hrec
        refine ⟨?_, ?_, ?_⟩
        · simp only [List.map_cons, IH1, List.length_cons]
          rw [List.range'_succ]
        · intro k hk
          match k with
          | 0 => exact ⟨_, List.mem_cons_self _ _, by simp⟩
          | k + 1 =>
            obtain ⟨rec, hmem, hid, hname⟩ := IH2 k (by simpa using hk)
            exact ⟨rec, List.mem_cons_of_mem _ hmem, by omega,
              by simpa [List.get_cons_succ] using hname⟩
        · intro x hx
          rcases List.mem_append.mp hx with hx1 | hx2
          · obtain ⟨h1, h2⟩ := annsFor_mem _ _ _ _ _ x hx1
            exact ⟨by simp only [List.length_cons, h1]; omega, h2⟩
          · obtain ⟨⟨hb1, hb2⟩, hc⟩ := IH3 x hx2
            exact ⟨by constructor <;> [omega; (simp only [List.length_cons]; omega)], hc⟩

theorem convertFold_ok_iff (fs : FS) : ∀ (ps : List String) (imgId annId : Nat),
    (∃ r, convertFold fs ps imgId annId = .ok r) ↔ ∀ p ∈ ps, fs.dims p ≠ none
  | [], imgId, annId => by simp [convertFold]
  | p :: ps, imgId, annId => by
    constructor
    · rintro ⟨r, hr⟩ q hq
      rw [convertFold] at hr
      rcases hd : fs.dims p with - | wh
      · rw [show _image_size (fs.dims p) p = .error ("cannot identify image file " ++ p) by
          rw [hd]; rfl] at hr
        exact absurd hr (by simp)
      · rw [show _image_size (fs.dims p) p = .ok wh by rw [hd]; rfl] at hr
        dsimp only at hr
        rcases hrec : convertFold fs ps (imgId + 1)
            (annId + (_read_yolo_labels (fs.labels (pyStem p))).length) with e | pr
        · rw [hrec] at hr
          exact absurd hr (by simp)
        · rcases List.mem_cons.mp hq with rfl | hq2
          · rw [hd]
            simp
          · exact (convertFold_ok_iff fs ps (imgId + 1)
              (annId + (_read_yolo_labels (fs.labels (pyStem p))).length)).mp ⟨pr, hrec⟩ q hq2
    · intro hall
      rcases hd : fs.dims p with - | wh
      · exact absurd (hd ▸ hall p (List.mem_cons_self p ps)) (by simp)
      · obtain ⟨pr, hrec⟩ := (convertFold_ok_iff fs ps (imgId + 1)
          (annId + (_read_yolo_labels (fs.labels (pyStem p))).length)).mpr
          (fun q hq => hall q (List.mem_cons_of_mem p hq))
        refine ⟨(⟨imgId, p, wh.1, wh.2, 1, "2024-04-12"⟩ :: pr.1,
          annsFor imgId wh.1 wh.2 annId (_read_yolo_labels (fs.labels (pyStem p))) ++ pr.2), ?_⟩
        rw [convertFold, show _image_size (fs.dims p) p = .ok wh by rw [hd]; rfl]
        dsimp only
        rw [hrec]

theorem convertFold_missing_label (fs : FS) : ∀ (ps : List String) (imgId annId : Nat)
    (imgs : List CocoImage) (anns : List CocoAnn),
    convertFold fs ps imgId annId = .ok (imgs, anns) →
    ∀ k (hk : k < ps.length), fs.labels (pyStem (ps.get ⟨k, hk⟩)) = none →
    anns.filter (fun x => x.image_id == imgId + k) = []
  | [], _, _, _, _, _, k, hk, _ => absurd hk (by simp)
  | p :: ps, imgId, annId, imgs, anns, h, k, hk, hlbl => by
    rw [convertFold] at h
    rcases hsz : _image_size (fs.dims p) p with e | wh
    · rw [hsz] at h
      exact absurd h (by simp)
    · rw [hsz] at h
      dsimp only at h
      rcases hrec : convertFold fs ps (imgId + 1)
          (annId + (_read_yolo_labels (fs.labels (pyStem p))).length) with e | pr
      · rw [hrec] at h
        exact absurd h (by simp)
      · rw [hrec] at h
        simp only [Except.ok.injEq, Prod.mk.injEq] at h
        obtain ⟨rfl, rfl⟩ := h
        rw [List.filter_append]
        have hbounds := (convertFold_images fs ps (imgId + 1)
          (annId + (_read_yolo_labels (fs.labels (pyStem p))).length) pr.1 pr.2 hrec).2.2
        match k with
        | 0 =>
          have hrows : _read_yolo_labels (fs.labels (pyStem p)) = [] := by
            rw [show fs.labels (pyStem p) = none from hlbl]
            rfl
          rw [hrows]
          have h2 : List.filter (fun x => x.image_id == imgId + 0) pr.2 = [] := by
            refine List.filter_eq_nil_iff.mpr fun x hx => ?_
            have hb := (hbounds x hx).1.1
            simp only [beq_iff_eq]
            omega
          rw [h2]
          rfl
        | k + 1 =>
          have h1 : List.filter (fun x => x.image_id == imgId + (k + 1))
              (annsFor imgId wh.1 wh.2 annId (_read_yolo_labels (fs.labels (pyStem p)))) = [] := by
            refine List.filter_eq_nil_iff.mpr fun x hx => ?_
            have hb := (annsFor_mem _ _ _ _ _ x hx).1
            simp only [beq_iff_eq]
            omega
          have h2 := convertFold_missing_label fs ps (imgId + 1)
            (annId + (_read_yolo_labels (fs.labels (pyStem p))).length) pr.1 pr.2 hrec k
            (by simpa using hk) (by simpa [List.get_cons_succ] using hlbl)
          rw [h1, show imgId + (k + 1) = imgId + 1 + k from by omega, h2]
          rfl

theorem giaReadRows_skip : ∀ (pre : List String) (post : List String) (bad : String),
    (pySplitWs (pyStrip bad)).length ≠ 5 →
    giaReadRows (pre ++ bad :: post) = giaReadRows (pre ++ post)
  | [], post, bad, h => by
    simp only [List.nil_append]
    rw [giaReadRows]
    split_ifs with hs
    · rfl
    · rcases hps : pySplitWs (pyStrip bad) with - | ⟨p0, - | ⟨p1, - | ⟨p2, - | ⟨p3, - | ⟨p4, - | ps⟩⟩⟩⟩⟩
      all_goals simp_all [hps]
  | l :: pre, post, bad, h => by
    have IH := giaReadRows_skip pre post bad h
    simp only [List.cons_append, giaReadRows, List.append_eq]
    rw [IH]

theorem giaReadRows_append : ∀ (xs ys : List String),
    giaReadRows (xs ++ ys) =
      if (giaReadRows xs).2 = true then ((giaReadRows xs).1, true)
      else ((giaReadRows xs).1 ++ (giaReadRows ys).1, (giaReadRows ys).2)
  | [], ys => by simp [giaReadRows]
  | l :: xs, ys => by
    have IH := giaReadRows_append xs ys
    simp only [List.cons_append, giaReadRows, List.append_eq]
    by_cases hsl : pyStrip l = ""
    · simp only [if_pos hsl]
      exact IH
    · simp only [if_neg hsl]
      rcases hpsl : pySplitWs (pyStrip l) with - | ⟨q0, - | ⟨q1, - | ⟨q2, - | ⟨q3, - | ⟨q4, - | qs⟩⟩⟩⟩⟩
      · exact IH
      · exact IH
      · exact IH
      · exact IH
      · exact IH
      · rcases h0 : pyIntOfString q0 with - | c
        · simp [h0]
        · rcases h1 : pyFloat q1 with - | x
          · simp [h0, h1]
          · rcases h2 : pyFloat q2 with - | y
            · simp [h0, h1, h2]
            · rcases h3 : pyFloat q3 with - | w
              · simp [h0, h1, h2, h3]
              · rcases h4 : pyFloat q4 with - | z
                · simp [h0, h1, h2, h3, h4]
                · simp only [h0, h1, h2, h3, h4]
                  rw [IH]
                  by_cases hb : (giaReadRows xs).2 = true
                  · simp [hb]
                  · simp [hb]
      · exact IH

theorem giaReadRows_abort_line (bad : String) (post : List String) (p0 p1 p2 p3 p4 : String)
    (hs : pyStrip bad ≠ "") (hps : pySplitWs (pyStrip bad) = [p0, p1, p2, p3, p4])
    (hnone : pyIntOfString p0 = none ∨ pyFloat p1 = none ∨ pyFloat p2 = none ∨
      pyFloat p3 = none ∨ pyFloat p4 = none) :
    giaReadRows (bad :: post) = ([], true) := by
  rw [giaReadRows]
  dsimp only
  rw [if_neg hs, hps]
  rcases h0 : pyIntOfString p0 with - | c
  · simp [h0]
  · rcases h1 : pyFloat p1 with - | x
    · simp [h0, h1]
    · rcases h2 : pyFloat p2 with - | y
      · simp [h0, h1, h2]
      · rcases h3 : pyFloat p3 with - | w
        · simp [h0, h1, h2, h3]
        · rcases h4 : pyFloat p4 with - | z
          · simp [h0, h1, h2, h3, h4]
          · simp only [h0, h1, h2, h3, h4] at hnone ⊢
            rcases hnone with h | h | h | h | h <;> exact absurd h (by simp)

theorem giaReadRows_abort (pre post : List String) (bad : String) (p0 p1 p2 p3 p4 : String)
    (hab : (giaReadRows pre).2 = false)
    (hs : pyStrip bad ≠ "") (hps : pySplitWs (pyStrip bad) = [p0, p1, p2, p3, p4])
    (hnone : pyIntOfString p0 = none ∨ pyFloat p1 = none ∨ pyFloat p2 = none ∨
      pyFloat p3 = none ∨ pyFloat p4 = none) :
    giaReadRows (pre ++ bad :: post) = ((giaReadRows pre).1, true) := by
  rw [giaReadRows_append, if_neg (by rw [hab]; simp),
    giaReadRows_abort_line bad post p0 p1 p2 p3 p4 hs hps hnone]
  simp

theorem parseRowTokens_length : ∀ (l : List String), l.length ≠ 5 → parseRowTokens l = none
  | [], _ => rfl
  | [_], _ => rfl
  | [_, _], _ => rfl
  | [_, _, _], _ => rfl
  | [_, _, _, _], _ => rfl
  | [_, _, _, _, _], h => absurd rfl h
  | _ :: _ :: _ :: _ :: _ :: _ :: _, _ => rfl

theorem lineRow_none (bad : String)
    (h : (pySplitWs (pyStrip bad)).length ≠ 5 ∨
      parseRowTokens (pySplitWs (pyStrip bad)) = none) :
    lineRow bad = none := by
  rw [lineRow]
  split_ifs with hs
  · rfl
  · rcases h with h | h
    · exact parseRowTokens_length _ h
    · exact h

theorem readRows_append : ∀ (xs ys : List String),
    readRows (xs ++ ys) = readRows xs ++ readRows ys
  | [], _ => rfl
  | x :: xs, ys => by
    simp only [List.cons_append, readRows, List.append_eq]
    cases lineRow x
    · exact readRows_append xs ys
    · rw [readRows_append xs ys]
      rfl

theorem readRows_skip (pre post : List String) (bad : String)
    (h : (pySplitWs (pyStrip bad)).length ≠ 5 ∨
      parseRowTokens (pySplitWs (pyStrip bad)) = none) :
    readRows (pre ++ bad :: post) = readRows pre ++ readRows post := by
  rw [readRows_append]
  congr 1
  rw [readRows, lineRow_none bad h]

theorem giaAnnsFor_mem (g : Nat → Nat × Nat) (image_id category_id W H : Nat) :
    ∀ (rows : List GiaYoloAnn) (k : Nat) (x : GiaAnn),
    x ∈ giaAnnsFor g image_id category_id W H k rows →
    x.image_id = image_id ∧ x.category_id = category_id
  | [], _, _, hx => absurd hx (List.not_mem_nil _)
  | a :: rs, k, x, hx => by
    rw [giaAnnsFor] at hx
    rcases List.mem_cons.mp hx with rfl | hx2
    · exact ⟨rfl, rfl⟩
    · exact giaAnnsFor_mem g image_id category_id W H rs (k + 1) x hx2

theorem giaMainFold_length (fs : FS) (g : Nat → Nat × Nat) :
    ∀ (files : List String) (off : Nat),
    ((giaMainFold fs g files off).1).length = files.length
  | [], _ => rfl
  | f :: rest, off => by
    rw [giaMainFold]
    simp only [List.length_cons]
    rw [giaMainFold_length fs g rest]

theorem charListLe_total : ∀ (a b : List Char), charListLe a b = true ∨ charListLe b a = true
  | [], _ => Or.inl rfl
  | _ :: _, [] => Or.inr rfl
  | a :: as, b :: bs => by
    rcases lt_trichotomy a b with h | h | h
    · left
      rw [charListLe, if_pos h]
    · subst h
      rcases charListLe_total as bs with h2 | h2
      · left
        rw [charListLe, if_neg (lt_irrefl a), if_neg (lt_irrefl a)]
        exact h2
      · right
        rw [charListLe, if_neg (lt_irrefl a), if_neg (lt_irrefl a)]
        exact h2
    · right
      rw [charListLe, if_pos h]

theorem charListLe_trans : ∀ (a b c : List Char),
    charListLe a b = true → charListLe b c = true → charListLe a c = true
  | [], _, _, _, _ => rfl
  | _ :: _, [], _, hab, _ => by rw [charListLe] at hab; exact absurd hab (by simp)
  | _ :: _, _ :: _, [], _, hbc => by rw [charListLe] at hbc; exact absurd hbc (by simp)
  | a :: as, b :: bs, c :: cs, hab, hbc => by
    rcases lt_trichotomy a b with h1 | h1 | h1
    · rcases lt_trichotomy b c with h2 | h2 | h2
      · rw [charListLe, if_pos (lt_trans h1 h2)]
      · subst h2
        rw [charListLe, if_pos h1]
      · rw [charListLe, if_neg (asymm h2), if_pos h2] at hbc
        exact absurd hbc (by simp)
    · subst h1
      rw [charListLe, if_neg (lt_irrefl a), if_neg (lt_irrefl a)] at hab
      rcases lt_trichotomy a c with h2 | h2 | h2
      · rw [charListLe, if_pos h2]
      · subst h2
        rw [charListLe, if_neg (lt_irrefl a), if_neg (lt_irrefl a)] at hbc
        rw [charListLe, if_neg (lt_irrefl a), if_neg (lt_irrefl a)]
        exact charListLe_trans as bs cs hab hbc
      · rw [charListLe, if_neg (asymm h2), if_pos h2] at hbc
        exact absurd hbc (by simp)
    · rw [charListLe, if_neg (asymm h1), if_pos h1] at hab
      exact absurd hab (by simp)

theorem collect_image_paths_mem (names : List String) (p : String) :
    p ∈ _collect_image_paths names none ↔ p ∈ names ∧ pyEndsWith p ".jpg" = true := by
  rw [_collect_image_paths]
  rw [pySorted, (List.perm_insertionSort pyStrLeRel _).mem_iff, List.mem_filter]

theorem collect_image_paths_sorted (names : List String) :
    List.Sorted pyStrLeRel (_collect_image_paths names none) := by
  rw [_collect_image_paths]
  exact @List.sorted_insertionSort String pyStrLeRel _
    ⟨fun a b => charListLe_total a.data b.data⟩
    ⟨fun a b c => charListLe_trans a.data b.data c.data⟩ _

theorem collect_image_paths_empty_stems (names : List String) :
    _collect_image_paths names (some []) = [] := by
  rw [_collect_image_paths]
  exact List.filter_eq_nil_iff.mpr fun a _ => by simp

/-- C5 counterexample: in scripts/convert_to_coco.py an image that PIL
cannot decode is fatal to the whole run: _image_size raises, nothing
catches the exception, and convert_to_coco writes no output, contradicting
the claimed fixed-dimension fallback for that entry point. -/
theorem C5_decode_cex :
    convert_to_coco fsBadImage none = .error "cannot identify image file bad.jpg" := rfl

/-- C5 (amended): generate_individual_annotations.py substitutes the fixed
640x640 fallback for an undecodable image, with an error print, and its
main loop still produces one document per enumerated image; in
scripts/convert_to_coco.py, by contrast, an undecodable selected image
makes the whole conversion raise, so the run is not completed. -/
theorem C5_decode_fallback :
    (∀ (path : String) (fileSize : Nat),
      get_image_info path none fileSize =
        ({ width := 640, height := 640, size := fileSize, format := "JPEG" },
          ["Error reading image " ++ path])) ∧
    (∀ (fs : FS) (g : Nat → Nat × Nat),
      ((generate_individual_main fs g).1).length =
        (fs.images.filter giaIsImageFile).length) ∧
    (∀ (fs : FS) (stems : Option (List String)) (p : String),
      p ∈ _collect_image_paths fs.images stems → fs.dims p = none →
      ∀ r, convert_to_coco fs stems ≠ .ok r) := by
  refine ⟨fun path fileSize => rfl, fun fs g => giaMainFold_length fs g _ 0, ?_⟩
  intro fs stems p hp hnone r hok
  rw [convert_to_coco] at hok
  rcases hcf : convertFold fs (_collect_image_paths fs.images stems) 1 1 with e | pr
  · rw [hcf] at hok
    exact absurd hok (by simp)
  · exact (convertFold_ok_iff fs (_collect_image_paths fs.images stems) 1 1).mp
      ⟨pr, hcf⟩ p hp hnone

/-- Witness for C5_decode_fallback: the fallback record for a concrete
unreadable image, and the aborted conversion of fsBadImage. -/
theorem C5_decode_fallback_witness :
    get_image_info "data/images/bad.jpg" none 3 =
      ({ width := 640, height := 640, size := 3, format := "JPEG" },
        ["Error reading image data/images/bad.jpg"]) ∧
    convert_to_coco fsBadImage none ≠ .ok (_build_coco_dict, []) :=
  ⟨C5_decode_fallback.1 "data/images/bad.jpg" 3,
    C5_decode_fallback.2.2 fsBadImage none "bad.jpg" (by decide) rfl (_build_coco_dict, [])⟩

/-- C6 counterexample: in generate_individual_annotations.py a 5-token line
with a non-numeric token is not skipped line-locally: the exception aborts
the whole read, so the well-formed second line of this file yields no
record, although alone it parses to one record.  (The token x raises in
int(), the try/except around the loop catches it and returns the rows read
so far.) -/
theorem C6_malformed_cex :
    read_yolo_annotations "data/labels/l.txt"
        (some "x 0.5 0.5 0.2 0.4\n0 0.5 0.5 0.2 0.4") =
      ([], ["Error reading label file data/labels/l.txt"]) ∧
    read_yolo_annotations "data/labels/l.txt" (some "0 0.5 0.5 0.2 0.4") =
      ([⟨0, mkRat 1 2, mkRat 1 2, mkRat 1 5, mkRat 2 5⟩], []) := by
  refine ⟨rfl, rfl⟩

/-- C6 (amended): in scripts/convert_to_coco.py every malformed label line
(wrong token count or failing numeric conversion) is skipped on its own,
all other lines of the file still being parsed; in
generate_individual_annotations.py a line whose token count is not 5 is
likewise skipped transparently, but a 5-token line with a failing int or
float conversion ends the parsing of the file, keeping the records of the
earlier lines; in neither script does a malformed line raise to the
caller. -/
theorem C6_malformed_lines :
    (∀ (pre post : List String) (bad : String),
      ((pySplitWs (pyStrip bad)).length ≠ 5 ∨
        parseRowTokens (pySplitWs (pyStrip bad)) = none) →
      readRows (pre ++ bad :: post) = readRows pre ++ readRows post) ∧
    (∀ (pre post : List String) (bad : String),
      (pySplitWs (pyStrip bad)).length ≠ 5 →
      giaReadRows (pre ++ bad :: post) = giaReadRows (pre ++ post)) ∧
    (∀ (pre post : List String) (bad p0 p1 p2 p3 p4 : String),
      (giaReadRows pre).2 = false → pyStrip bad ≠ "" →
      pySplitWs (pyStrip bad) = [p0, p1, p2, p3, p4] →
      (pyIntOfString p0 = none ∨ pyFloat p1 = none ∨ pyFloat p2 = none ∨
        pyFloat p3 = none ∨ pyFloat p4 = none) →
      giaReadRows (pre ++ bad :: post) = ((giaReadRows pre).1, true)) :=
  ⟨readRows_skip, giaReadRows_skip, giaReadRows_abort⟩

/-- Witness for C6_malformed_lines: a 4-token line between two well-formed
lines in the converter parser, a 4-token line in the individual parser, and
a non-numeric 5-token line aborting the individual parser. -/
theorem C6_malformed_lines_witness :
    readRows (["0 0.5 0.5 0.2 0.4"] ++ "0 0.1 0.2 0.3" :: ["1 0.1 0.1 0.1 0.1"]) =
        readRows ["0 0.5 0.5 0.2 0.4"] ++ readRows ["1 0.1 0.1 0.1 0.1"] ∧
    giaReadRows (["0 0.5 0.5 0.2 0.4"] ++ "0 0.1 0.2 0.3" :: ["1 0.1 0.1 0.1 0.1"]) =
        giaReadRows (["0 0.5 0.5 0.2 0.4"] ++ ["1 0.1 0.1 0.1 0.1"]) ∧
    giaReadRows (["0 0.5 0.5 0.2 0.4"] ++ "x 0.5 0.5 0.2 0.4" :: ["1 0.1 0.1 0.1 0.1"]) =
        ((giaReadRows ["0 0.5 0.5 0.2 0.4"]).1, true) :=
  ⟨C6_malformed_lines.1 ["0 0.5 0.5 0.2 0.4"] ["1 0.1 0.1 0.1 0.1"] "0 0.1 0.2 0.3"
      (Or.inl (by decide)),
    C6_malformed_lines.2.1 ["0 0.5 0.5 0.2 0.4"] ["1 0.1 0.1 0.1 0.1"] "0 0.1 0.2 0.3"
      (by decide),
    C6_malformed_lines.2.2 ["0 0.5 0.5 0.2 0.4"] ["1 0.1 0.1 0.1 0.1"] "x 0.5 0.5 0.2 0.4"
      "x" "0.5" "0.5" "0.2" "0.4" (by decide) (by decide) (by decide)
      (Or.inl (by decide))⟩

/-- C7 counterexample: for an image whose label file is missing,
convert_to_coco does emit the image record with zero annotations and does
not fail, but nothing in that script prints a warning for it: the anomaly
channel of the run is empty, so the claimed accompanying warning does not
exist for this entry point. -/
theorem C7_missing_label_cex :
    convert_to_coco fsNoLabel none = .ok (docNoLabel, []) := rfl

/-- C7 (amended): an image with a missing label file is still converted:
convert_to_coco keeps its image record (id k+1 for position k) with no
annotation referencing it and succeeds (given decodable images), silently;
generate_individual_json emits the image with an empty annotations array
and prints the warning about the missing label file. -/
theorem C7_missing_label :
    (∀ (fs : FS) (stems : Option (List String)) (doc : CocoDoc) (logs : List String)
      (k : Nat) (hk : k < (_collect_image_paths fs.images stems).length),
      convert_to_coco fs stems = .ok (doc, logs) →
      fs.labels (pyStem ((_collect_image_paths fs.images stems).get ⟨k, hk⟩)) = none →
      (∃ rec ∈ doc.images, rec.id = k + 1 ∧
        rec.file_name = (_collect_image_paths fs.images stems).get ⟨k, hk⟩) ∧
      doc.annotations.filter (fun x => x.image_id == k + 1) = [] ∧ logs = []) ∧
    (∀ (f : String) (fs : FS) (g : Nat → Nat × Nat), fs.labels (pySplitextRoot f) = none →
      (generate_individual_json f fs g).1.annotations = [] ∧
      ((generate_individual_json f fs g).1.images.map (fun r => r.file_name)) = [f] ∧
      ("Warning: Label file not found for " ++ f) ∈ (generate_individual_json f fs g).2) := by
  constructor
  · intro fs stems doc logs k hk hok hlbl
    rw [convert_to_coco] at hok
    rcases hcf : convertFold fs (_collect_image_paths fs.images stems) 1 1 with e | pr
    · rw [hcf] at hok
      exact absurd hok (by simp)
    · rw [hcf] at hok
      simp only [Except.ok.injEq, Prod.mk.injEq] at hok
      obtain ⟨hdoc, hlogs⟩ := hok
      subst hdoc
      subst hlogs
      obtain ⟨-, himg, -⟩ := convertFold_images fs _ 1 1 pr.1 pr.2 hcf
      refine ⟨?_, ?_, rfl⟩
      · obtain ⟨rec, hmem, hid, hname⟩ := himg k hk
        exact ⟨rec, hmem, by omega, hname⟩
      · have := convertFold_missing_label fs _ 1 1 pr.1 pr.2 hcf k hk hlbl
        rw [show k + 1 = 1 + k from by omega]
        exact this
  · intro f fs g hlbl
    rw [generate_individual_json]
    dsimp only
    rw [hlbl]
    refine ⟨rfl, rfl, ?_⟩
    exact List.mem_append_right _ (List.mem_singleton.mpr rfl)

/-- Witness for C7_missing_label at the concrete environment fsNoLabel. -/
theorem C7_missing_label_witness :
    ((∃ rec ∈ docNoLabel.images, rec.id = 0 + 1 ∧
        rec.file_name = (_collect_image_paths fsNoLabel.images none).get ⟨0, by decide⟩) ∧
      docNoLabel.annotations.filter (fun x => x.image_id == 0 + 1) = [] ∧
      ([] : List String) = []) ∧
    ((generate_individual_json "img.jpg" fsNoLabel gZero).1.annotations = [] ∧
      ((generate_individual_json "img.jpg" fsNoLabel gZero).1.images.map
        (fun r => r.file_name)) = ["img.jpg"] ∧
      ("Warning: Label file not found for " ++ "img.jpg") ∈
        (generate_individual_json "img.jpg" fsNoLabel gZero).2) :=
  ⟨C7_missing_label.1 fsNoLabel none docNoLabel [] 0 (by decide) rfl rfl,
    C7_missing_label.2 "img.jpg" fsNoLabel gZero rfl⟩

/-- C8 counterexample: a PNG image in the images directory is not
enumerated by the converter of scripts/convert_to_coco.py, whose glob
pattern selects *.jpg files only, so an image stored with the .png
extension is not included in that output. -/
theorem C8_enumeration_cex :
    _collect_image_paths ["apple.png"] none = [] ∧
    ("apple.png" : String) ∈ (["apple.png"] : List String) ∧
    giaIsImageFile "apple.png" = true := by
  refine ⟨rfl, by decide, by decide⟩

/-- C8 (amended): scripts/convert_to_coco.py enumerates exactly the files
ending in .jpg, sorted by name; generate_individual_annotations.py
enumerates exactly the files whose lower-cased name ends in .jpg, .jpeg or
.png, in directory-listing order (a sublist of the listing, not sorted). -/
theorem C8_enumeration :
    (∀ (names : List String) (p : String),
      p ∈ _collect_image_paths names none ↔ p ∈ names ∧ pyEndsWith p ".jpg" = true) ∧
    (∀ names : List String, List.Sorted pyStrLeRel (_collect_image_paths names none)) ∧
    (∀ (names : List String) (f : String),
      f ∈ names.filter giaIsImageFile ↔ f ∈ names ∧ giaIsImageFile f = true) ∧
    (∀ names : List String, (names.filter giaIsImageFile).Sublist names) :=
  ⟨collect_image_paths_mem, collect_image_paths_sorted,
    fun _ _ => List.mem_filter, fun _ => List.filter_sublist _⟩

/-- C9: in every successful convert_to_coco run the image ids are pairwise
distinct, every annotation references an image id of the same document, and
every annotation carries the id of the single fixed category (1) whatever
the class index in the label line; in every document of
generate_individual_json the single image id is trivially distinct, every
annotation references it, and every annotation carries the id of the
document's single category. -/
theorem C9_id_integrity :
    (∀ (fs : FS) (stems : Option (List String)) (doc : CocoDoc) (logs : List String),
      convert_to_coco fs stems = .ok (doc, logs) →
      (doc.images.map (fun r => r.id)).Nodup ∧
      (∀ x ∈ doc.annotations, x.image_id ∈ doc.images.map (fun r => r.id)) ∧
      doc.categories.map (fun c => c.id) = [1] ∧
      (∀ x ∈ doc.annotations, x.category_id = 1)) ∧
    (∀ (f : String) (fs : FS) (g : Nat → Nat × Nat),
      (((generate_individual_json f fs g).1).images.map (fun r => r.id)).Nodup ∧
      (∀ x ∈ ((generate_individual_json f fs g).1).annotations,
        x.image_id ∈ ((generate_individual_json f fs g).1).images.map (fun r => r.id)) ∧
      (∀ x ∈ ((generate_individual_json f fs g).1).annotations,
        ((generate_individual_json f fs g).1).categories.map (fun c => c.id) =
          [x.category_id])) := by
  constructor
  · intro fs stems doc logs hok
    rw [convert_to_coco] at hok
    rcases hcf : convertFold fs (_collect_image_paths fs.images stems) 1 1 with e | pr
    · rw [hcf] at hok
      exact absurd hok (by simp)
    · rw [hcf] at hok
      simp only [Except.ok.injEq, Prod.mk.injEq] at hok
      obtain ⟨hdoc, -⟩ := hok
      subst hdoc
      obtain ⟨hids, -, hanns⟩ := convertFold_images fs _ 1 1 pr.1 pr.2 hcf
      refine ⟨?_, ?_, rfl, ?_⟩
      · rw [show ({ _build_coco_dict with images := pr.1, annotations := pr.2 } :
          CocoDoc).images = pr.1 from rfl, hids]
        exact List.nodup_range' _ _
      · intro x hx
        obtain ⟨⟨hb1, hb2⟩, -⟩ := hanns x hx
        rw [show ({ _build_coco_dict with images := pr.1, annotations := pr.2 } :
          CocoDoc).images = pr.1 from rfl, hids, List.mem_range'_1]
        omega
      · intro x hx
        exact (hanns x hx).2
  · intro f fs g
    rw [generate_individual_json]
    dsimp only
    rcases hlb : fs.labels (pySplitextRoot f) with - | s
    · exact ⟨by simp, by simp, by simp⟩
    · refine ⟨by simp, ?_, ?_⟩
      · intro x hx
        have := (giaAnnsFor_mem _ _ _ _ _ _ _ x hx).1
        simp [this]
      · intro x hx
        have := (giaAnnsFor_mem _ _ _ _ _ _ _ x hx).2
        simp [this]

/-- Witness for C9_id_integrity at the concrete environment fsSample. -/
theorem C9_id_integrity_witness :
    (docSample.images.map (fun r => r.id)).Nodup ∧
    (∀ x ∈ docSample.annotations, x.image_id ∈ docSample.images.map (fun r => r.id)) ∧
    docSample.categories.map (fun c => c.id) = [1] ∧
    (∀ x ∈ docSample.annotations, x.category_id = 1) :=
  C9_id_integrity.1 fsSample none docSample [] rfl

/-- C10: a missing split file reads as the empty stem list without error;
with stems = none the converter selects exactly the .jpg files of the
directory, while with an empty stems list it selects nothing and still
writes the well-formed skeleton document with empty images and annotations
arrays. -/
theorem C10_stems_semantics :
    _read_split_file none = [] ∧
    (∀ (names : List String) (p : String),
      p ∈ _collect_image_paths names none ↔ p ∈ names ∧ pyEndsWith p ".jpg" = true) ∧
    (∀ names : List String, _collect_image_paths names (some []) = []) ∧
    (∀ fs : FS, convert_to_coco fs (some []) = .ok (_build_coco_dict, [])) := by
  refine ⟨rfl, collect_image_paths_mem, collect_image_paths_empty_stems, ?_⟩
  intro fs
  rw [convert_to_coco, collect_image_paths_empty_stems]
  rfl
